import Mathlib

/-!
Verification of the tunnrl tunnel client (src/api.ts and the CLI client it
ships with) against its natural-language specification.

The development shallowly embeds the parts of the TypeScript source the
claims are about:
* the local HTTP forwarder `forwardToLocal` (body decode, hop-by-hop header
  stripping, host rewrite, content-length, transport-scheme choice, and the
  502/504 error mapping), with the environment's possible outcomes for the
  outbound call made explicit as a sum type;
* the WebSocket message handler (JSON frames, type-tag dispatch, the fatal
  `error` branch, the `registered` branch, silent discard of unparseable
  frames);
* the CLI client's reconnect backoff (`scheduleReconnect`) and its bounded
  replay buffer (`recentRequests` push/shift).

JavaScript strings are modelled as Lean `String`s, byte buffers as
`List Nat` (each entry a byte), JSON values as an inductive `JVal`,
JavaScript object literals as ordered association lists with
assign-in-place-or-append update, and the jitter `Math.random() * 500` as an
explicit rational parameter in `[0, 500)`.
-/

-- ─── Header values and headers (JS `Record<string, string | string[]>`,
--     plus the numeric `content-length` the code inserts) ───────────────────

/-- A JavaScript header value: a string, an array of strings, or (for the
`content-length` entry the forwarder inserts) a number. -/
inductive HVal where
  | str (s : String)
  | list (l : List String)
  | num (n : Nat)
deriving DecidableEq, Repr

/-- A JavaScript object holding headers, in property-insertion order.
JS objects have pairwise-distinct keys; theorems that need this assume it. -/
abbrev Headers := List (String × HVal)

/-- JS object property assignment `obj[k] = v`: if the key is present its
value is updated in place (position kept), otherwise the pair is appended.
The spread `{ ...obj, k: v }` has the same semantics. -/
def jsSet : Headers → String → HVal → Headers
  | [], k, v => [(k, v)]
  | (k2, v2) :: rest, k, v =>
      if k2 = k then (k, v) :: rest else (k2, v2) :: jsSet rest k v

-- ─── Wire data model (api.ts interfaces) ──────────────────────────────────

/-- `ForwardedRequest` from api.ts: a request relayed to the client.
The `body` is a base64 string as it appears on the wire. -/
structure ForwardedRequest where
  requestId : String
  method : String
  path : String
  headers : Headers
  body : String
deriving DecidableEq, Repr

/-- `ForwardedResponse` from api.ts: the answer sent back over the channel.
The source also carries a constant `type: 'response'` tag, kept here. -/
structure ForwardedResponse where
  type : String
  requestId : String
  status : Nat
  headers : Headers
  body : String
deriving DecidableEq, Repr

-- ─── Bytes, base64 and JSON string bodies ─────────────────────────────────

/-- UTF-8 bytes of a string; all payloads the theorems evaluate are ASCII,
where UTF-8 is one byte per character (models `Buffer.from(s)`). -/
def asciiBytes (s : String) : List Nat := s.data.map Char.toNat

/-- The base64 alphabet used by `Buffer`'s `'base64'` codec. -/
def base64Chars : List Char :=
  "ABCDEFGHIJKLMNOPQRSTUVWXYZabcdefghijklmnopqrstuvwxyz0123456789+/".data

/-- Character of a 6-bit group. -/
def b64CharAt (n : Nat) : Char := base64Chars.getD n 'A'

/-- Base64-encode a byte list in 3-byte groups with `=` padding
(models `buf.toString('base64')`). -/
def base64EncodeGroups : List Nat → List Char
  | b0 :: b1 :: b2 :: rest =>
      let n := b0 * 65536 + b1 * 256 + b2
      b64CharAt (n / 262144) :: b64CharAt (n / 4096 % 64) ::
      b64CharAt (n / 64 % 64) :: b64CharAt (n % 64) :: base64EncodeGroups rest
  | [b0, b1] =>
      let n := b0 * 1024 + b1 * 4
      [b64CharAt (n / 4096), b64CharAt (n / 64 % 64), b64CharAt (n % 64), '=']
  | [b0] => [b64CharAt (b0 / 4), b64CharAt (b0 % 4 * 16), '=', '=']
  | [] => []

def base64Encode (bs : List Nat) : String := String.mk (base64EncodeGroups bs)

/-- Index of a character in the base64 alphabet, `none` for padding and any
character outside the alphabet. -/
def b64Index (c : Char) : Option Nat :=
  (base64Chars.indexOf c) |> fun i => if i < 64 then some i else none

/-- Reassemble bytes from 6-bit groups; a trailing group of three sextets
yields two bytes, of two sextets one byte, of one sextet nothing. -/
def decodeSextets : List Nat → List Nat
  | a :: b :: c :: d :: rest =>
      (a * 4 + b / 16) :: (b % 16 * 16 + c / 4) :: (c % 4 * 64 + d) ::
      decodeSextets rest
  | [a, b, c] => [a * 4 + b / 16, b % 16 * 16 + c / 4]
  | [a, b] => [a * 4 + b / 16]
  | _ => []

/-- Forgiving base64 decode (models `Buffer.from(s, 'base64')`, which skips
characters outside the alphabet and never throws). -/
def base64Decode (s : String) : List Nat :=
  decodeSextets (s.data.filterMap b64Index)

/-- JSON escaping of one character as `JSON.stringify` performs it. -/
def jsonEscapeChar (c : Char) : String :=
  if c = '"' then "\\\""
  else if c = '\\' then "\\\\"
  else if c = '\n' then "\\n"
  else if c = '\r' then "\\r"
  else if c = '\t' then "\\t"
  else if c = Char.ofNat 8 then "\\b"
  else if c = Char.ofNat 12 then "\\f"
  else if c.toNat < 32 then
    "\\u00" ++ String.mk ["0123456789abcdef".data.getD (c.toNat / 16) '0',
                          "0123456789abcdef".data.getD (c.toNat % 16) '0']
  else String.mk [c]

def jsonEscape (s : String) : String :=
  String.join (s.data.map jsonEscapeChar)

/-- The text `JSON.stringify({ error: message })` produces. -/
def jsonStringifyError (message : String) : String :=
  "\x7b\"error\":\"" ++ jsonEscape message ++ "\"\x7d"

-- ─── makeErrorResponse (api.ts lines 70-78) ───────────────────────────────

/-- `makeErrorResponse` from api.ts: a synthesized failure response whose
body is the base64 encoding of `JSON.stringify({ error: message })`. -/
def makeErrorResponse (requestId : String) (status : Nat) (message : String) :
    ForwardedResponse :=
  { type := "response"
    requestId := requestId
    status := status
    headers := [("content-type", HVal.str "application/json")]
    body := base64Encode (asciiBytes (jsonStringifyError message)) }

-- ─── Outbound header construction (api.ts lines 86-103) ───────────────────

/-- JS `String.prototype.toLowerCase`, character by character; on the ASCII
header names involved this agrees with the JS Unicode lowering. -/
def jsToLowerCase (s : String) : String := String.mk (s.data.map Char.toLower)

/-- The hop-by-hop header names the forwarder strips (compared against the
lowercased key). -/
def hopByHopHeaders : List String :=
  ["connection", "keep-alive", "transfer-encoding", "upgrade",
   "proxy-connection", "te", "trailers"]

/-- The filtering loop of `forwardToLocal`: copy every entry whose
lowercased key is not hop-by-hop into a fresh object. -/
def stripHopByHop (hs : Headers) : Headers :=
  hs.foldl
    (fun acc p =>
      if hopByHopHeaders.contains (jsToLowerCase p.1) then acc
      else jsSet acc p.1 p.2)
    []

/-- The headers object `forwardToLocal` passes to `transport.request`:
the stripped request headers, then `headers['host'] = host:port`, then the
spread `{ ...headers, 'content-length': bodyBuf.length }`. -/
def forwardOptionsHeaders (localHost : String) (localPort : Nat)
    (request : ForwardedRequest) : Headers :=
  let stripped := stripHopByHop request.headers
  let withHost :=
    jsSet stripped "host" (HVal.str (localHost ++ ":" ++ toString localPort))
  jsSet withHost "content-length" (HVal.num (base64Decode request.body).length)

/-- The value Node's HTTP client actually sends for header name `n`
(`n` given lowercased): `ClientRequest` copies the headers object in
property order into a store keyed by the lowercased name, each assignment
overwriting the previous one, so of all entries whose key lowercases to `n`
the last one wins. -/
def effectiveHeader (hs : Headers) (n : String) : Option HVal :=
  match hs with
  | [] => none
  | (k, v) :: rest =>
      match effectiveHeader rest n with
      | some w => some w
      | none => if jsToLowerCase k = n then some v else none

-- ─── Transport scheme choice (api.ts line 105 / CLI lines 380-381) ────────

/-- JS `String.prototype.startsWith`. -/
def jsStartsWith (s pre : String) : Bool := pre.data.isPrefixOf s.data

/-- API module: `const transport = localHost.startsWith('https') ? https : http`. -/
def forwardTransportIsHttps (localHost : String) : Bool :=
  jsStartsWith localHost "https"

/-- CLI copy: `const isHttps = localHost.startsWith('https://')`. -/
def cliForwardTransportIsHttps (localHost : String) : Bool :=
  jsStartsWith localHost "https://"

-- ─── forwardToLocal (api.ts lines 80-139) ─────────────────────────────────

/-- The timeout armed on the outbound request, in milliseconds. -/
def FORWARD_TIMEOUT_MS : Nat := 25000

/-- The environment's possible outcomes for the outbound local call, the
events `forwardToLocal` registers handlers for: a completed local response
(status code, headers, body chunks), an `error` on the outbound request
(connection refused / DNS failure), the socket-inactivity timeout callback
firing (`outcomeOfTiming` below relates it to the timing of the local
service's activity), or an `error` on the response stream mid-transfer.
A synchronous throw of `transport.request` itself is not an outcome of the
registered handlers; `forwardToLocalSettled` below accounts for it. -/
inductive LocalOutcome where
  | success (statusCode : Option Nat) (respHeaders : Headers)
      (chunks : List (List Nat))
  | connError
  | timeout
  | streamError
deriving DecidableEq, Repr

/-- The handlers of `forwardToLocal` from api.ts: every outcome of the
outbound call is mapped to a `ForwardedResponse` passed to `resolve`.  On
success the status defaults to 200 when absent and the body is the base64
encoding of the concatenated chunks; the three failure handlers resolve
with `makeErrorResponse` (502 refusal, 504 timeout, 502 stream error). -/
def forwardToLocal (localHost : String) (localPort : Nat)
    (request : ForwardedRequest) : LocalOutcome → ForwardedResponse
  | LocalOutcome.success statusCode respHeaders chunks =>
      { type := "response"
        requestId := request.requestId
        status := statusCode.getD 200
        headers := respHeaders
        body := base64Encode chunks.flatten }
  | LocalOutcome.connError =>
      makeErrorResponse request.requestId 502
        ("Could not connect to " ++ localHost ++ ":" ++ toString localPort ++
         ". Is your service running?")
  | LocalOutcome.timeout =>
      makeErrorResponse request.requestId 504 "Local service timed out"
  | LocalOutcome.streamError =>
      makeErrorResponse request.requestId 502 "Local service error"

-- ─── Synchronous validation of transport.request (Node lib/_http_client) ──

/-- Socket-activity timeline of a local service that eventually answers:
the inactivity gaps, in milliseconds, between successive socket events
(connection, each data chunk, `end`). -/
structure ResponseTiming where
  gaps : List Nat
deriving DecidableEq, Repr

/-- When the outbound call completes, i.e. when `end` fires. -/
def completionTime (t : ResponseTiming) : Nat := t.gaps.sum

/-- `localReq.setTimeout(25_000, ...)` arms a socket inactivity timeout:
its callback runs iff a single gap with no socket activity reaches
25000 ms — every arriving chunk resets the timer. -/
def socketTimeoutFires (t : ResponseTiming) : Bool :=
  t.gaps.any (fun g => FORWARD_TIMEOUT_MS ≤ g)

/-- The outcome the forwarder's handlers deliver for a local service that
answers with the given status, headers and chunks at the given timing:
the timeout callback (destroy, then resolve 504) wins iff the inactivity
timeout fires before `end`; otherwise the `end` handler resolves the
collected success response.  Connection refusal and stream errors are the
separate `LocalOutcome` cases. -/
def outcomeOfTiming (statusCode : Option Nat) (respHeaders : Headers)
    (chunks : List (List Nat)) (t : ResponseTiming) : LocalOutcome :=
  if socketTimeoutFires t then LocalOutcome.timeout
  else LocalOutcome.success statusCode respHeaders chunks

-- ─── JSON values and the WebSocket message handler (api.ts lines 163-202) ──

/-- A parsed JSON value, as `JSON.parse` yields it. -/
inductive JVal where
  | null
  | bool (b : Bool)
  | num (q : Rat)
  | str (s : String)
  | arr (elems : List JVal)
  | obj (fields : List (String × JVal))

/-- Property lookup on an object's field list; with duplicate keys in the
frame text `JSON.parse` keeps the last, so the rightmost entry wins. -/
def listGetField : List (String × JVal) → String → Option JVal
  | [], _ => none
  | (k2, v) :: rest, k =>
      match listGetField rest k with
      | some w => some w
      | none => if k2 = k then some v else none

/-- JS property access `v[k]`.  On the parsed value `null` it throws a
TypeError (`Except.error`); on any other non-object value it yields
`undefined`, modelled as `Except.ok none`. -/
def JVal.getField : JVal → String → Except String (Option JVal)
  | JVal.null, _ => Except.error "TypeError: Cannot read properties of null"
  | JVal.obj fields, k => Except.ok (listGetField fields k)
  | _, _ => Except.ok none

/-- Property access at a point where a read on the same base value has
already succeeded (the handler reads `msg.message` or `msg.url` only after
`msg.type` evaluated, which a `null` frame cannot pass), so the throwing
case is unreachable. -/
def JVal.getFieldD (v : JVal) (k : String) : Option JVal :=
  match v.getField k with
  | Except.ok o => o
  | Except.error _ => none

/-- The `msg.type` dispatch value: propagates the TypeError of reading a
property of `null`; otherwise `ok (some t)` exactly when the `type`
property is the string `t` (`===` against a string literal fails on
anything else). -/
def typeTag (v : JVal) : Except String (Option String) :=
  match v.getField "type" with
  | Except.error e => Except.error e
  | Except.ok (some (JVal.str s)) => Except.ok (some s)
  | Except.ok _ => Except.ok none

mutual
/-- JS string coercion of a value, as a template literal performs it. -/
def jsValToString : JVal → String
  | JVal.null => "null"
  | JVal.bool true => "true"
  | JVal.bool false => "false"
  | JVal.str s => s
  | JVal.num q => if q.den = 1 then toString q.num else toString q
  | JVal.arr elems => jsValListToString elems
  | JVal.obj _ => "[object Object]"

/-- Array coercion: elements joined with commas, `null` rendered empty. -/
def jsValListToString : List JVal → String
  | [] => ""
  | [JVal.null] => ""
  | [v] => jsValToString v
  | JVal.null :: rest => "," ++ jsValListToString rest
  | v :: rest => jsValToString v ++ "," ++ jsValListToString rest
end

/-- Coercion of a possibly-missing property (template literal `${x}`). -/
def jsToString : Option JVal → String
  | none => "undefined"
  | some v => jsValToString v

/-- What one invocation of the api.ts `ws.on('message')` handler does with a
frame.  `discard` is the bare `return`: nothing raised, emitted, sent or
mutated.  `fatalError m` is the `type === 'error'` branch: clear the connect
timeout, `ws.close()`, and reject the construction promise with an `Error`
carrying `m` when not yet resolved (`m = none` after registration).
`register u` is the `type === 'registered'` branch: clear the connect
timeout, assign `tunnel.url` the frame's `url` property (which may be absent
or non-string) and resolve the construction promise.  `forward v` is the
`type === 'request'` branch: run `forwardToLocal` on the frame taken
wholesale as a request.  `typeError e` is no branch at all: evaluating
`msg.type` threw, and the exception escapes the async handler as an
unhandled promise rejection — not a silent discard. -/
inductive MsgAction where
  | discard
  | fatalError (rejectMessage : Option String)
  | register (url : Option JVal)
  | forward (rawRequest : JVal)
  | typeError (message : String)

/-- The api.ts message handler: `JSON.parse` failure (`frame = none`) hits
the catch-and-return; otherwise the branches test `msg.type` against
`'error'`, `'registered'`, `'request'` in order, and anything else falls off
the end of the handler. -/
def handleMessage (resolved : Bool) (frame : Option JVal) : MsgAction :=
  match frame with
  | none => MsgAction.discard
  | some v =>
      match typeTag v with
      | Except.error e => MsgAction.typeError e
      | Except.ok none => MsgAction.discard
      | Except.ok (some t) =>
          if t = "error" then
            MsgAction.fatalError
              (if resolved then none
               else some ("tunnrl: " ++ jsToString (v.getFieldD "message")))
          else if t = "registered" then
            MsgAction.register (v.getFieldD "url")
          else if t = "request" then
            MsgAction.forward v
          else
            MsgAction.discard

/-- Whether the handler branch closes the control channel: only the
`error` branch calls `ws.close()`. -/
def closesChannel : MsgAction → Bool
  | MsgAction.fatalError _ => true
  | _ => false

/-- The expected structural shape of the known wire variants, from the
protocol table of the spec (registered / error / request / response); used
to state the malformed-frame claim. -/
def isStrField : Option JVal → Bool
  | some (JVal.str _) => true
  | _ => false

def isNumField : Option JVal → Bool
  | some (JVal.num _) => true
  | _ => false

def isObjField : Option JVal → Bool
  | some (JVal.obj _) => true
  | _ => false

def expectedShape (v : JVal) : Bool :=
  match typeTag v with
  | Except.ok (some "registered") =>
      isStrField (v.getFieldD "subdomain") && isStrField (v.getFieldD "url")
  | Except.ok (some "error") => isStrField (v.getFieldD "message")
  | Except.ok (some "request") =>
      isStrField (v.getFieldD "requestId") &&
      isStrField (v.getFieldD "method") &&
      isStrField (v.getFieldD "path") && isObjField (v.getFieldD "headers") &&
      isStrField (v.getFieldD "body")
  | Except.ok (some "response") =>
      isStrField (v.getFieldD "requestId") &&
      isNumField (v.getFieldD "status") &&
      isObjField (v.getFieldD "headers") && isStrField (v.getFieldD "body")
  | _ => false

-- ─── Response send guard (api.ts lines 199-201, CLI lines 529-531) ────────

/-- WebSocket ready states. -/
inductive ReadyState where
  | CONNECTING
  | OPEN
  | CLOSING
  | CLOSED
deriving DecidableEq, Repr

/-- The guarded send after a forward completes:
`if (ws.readyState === WebSocket.OPEN) ws.send(JSON.stringify(response))`.
The result is the frame handed to `ws.send`, `none` when the completed
response is silently dropped. -/
def sendResponseIfOpen (readyState : ReadyState)
    (response : ForwardedResponse) : Option ForwardedResponse :=
  if readyState = ReadyState.OPEN then some response else none

-- ─── CLI client state: backoff, shutdown, replay (CLI lines 445-568) ──────

/-- The CLI client's module-level mutable state relevant to reconnection. -/
structure CliTunnelState where
  reconnectDelay : Rat
  reconnectAttempts : Nat
  shuttingDown : Bool
deriving DecidableEq, Repr

/-- Initial state: `let reconnectDelay = 1000; let reconnectAttempts = 0;
let shuttingDown = false`. -/
def cliInitialState : CliTunnelState :=
  { reconnectDelay := 1000, reconnectAttempts := 0, shuttingDown := false }

/-- The `ws.on('open')` handler resets the backoff:
`reconnectDelay = 1000; reconnectAttempts = 0`. -/
def wsOnOpen (st : CliTunnelState) : CliTunnelState :=
  { st with reconnectDelay := 1000, reconnectAttempts := 0 }

/-- `scheduleReconnect` (CLI lines 556-568) with the draw
`Math.random() * 500` made an explicit parameter: returns the delay passed
to `setTimeout` and the updated state
(`delay = Math.min(reconnectDelay + jitter, 30000)`;
`reconnectDelay = Math.min(reconnectDelay * 2, 30000)`). -/
def scheduleReconnect (st : CliTunnelState) (jitter : Rat) :
    Rat × CliTunnelState :=
  (min (st.reconnectDelay + jitter) 30000,
   { st with
      reconnectAttempts := st.reconnectAttempts + 1
      reconnectDelay := min (st.reconnectDelay * 2) 30000 })

/-- State after `n` consecutive unexpected closes following a successful
open (the jitter draw does not influence the state update). -/
def stateAfterCloses : Nat → CliTunnelState
  | 0 => wsOnOpen cliInitialState
  | n + 1 => (scheduleReconnect (stateAfterCloses n) 0).2

/-- The `reconnectDelay` in force when the `n`-th consecutive close is
handled. -/
def reconnectDelayAfterCloses (n : Nat) : Rat :=
  (stateAfterCloses n).reconnectDelay

/-- The CLI `type === 'error'` branch sets `shuttingDown = true` (and closes
the socket and exits). -/
def cliHandleServerError (st : CliTunnelState) : CliTunnelState :=
  { st with shuttingDown := true }

/-- Whether the CLI `ws.on('close')` handler invokes `scheduleReconnect`:
it returns immediately when `shuttingDown` is set. -/
def cliOnCloseSchedulesReconnect (st : CliTunnelState) : Bool :=
  !st.shuttingDown

-- ─── Replay buffer (CLI lines 514-516) ────────────────────────────────────

/-- One recording step: `recentRequests.push(request);
if (recentRequests.length > 10) recentRequests.shift();`. -/
def recordRecentRequest (buf : List ForwardedRequest)
    (request : ForwardedRequest) : List ForwardedRequest :=
  let pushed := buf ++ [request]
  if pushed.length > 10 then pushed.tail else pushed

-- ─── Concrete example values used by witnesses and counterexamples ────────

/-- A concrete request with a given id and no special content. -/
def sampleRequest (id : String) : ForwardedRequest :=
  { requestId := id, method := "GET", path := "/", headers := [], body := "" }

/-- Ten concrete pairwise-distinct requests. -/
def tenRequests : List ForwardedRequest :=
  [sampleRequest "1", sampleRequest "2", sampleRequest "3", sampleRequest "4",
   sampleRequest "5", sampleRequest "6", sampleRequest "7", sampleRequest "8",
   sampleRequest "9", sampleRequest "10"]

/-- A request carrying both a lowercase `host` key and a capitalized `Host`
key, as the wire format permits. -/
def hostCollisionRequest : ForwardedRequest :=
  { requestId := "r1"
    method := "GET"
    path := "/"
    headers := [("host", HVal.str "evil-a"), ("Host", HVal.str "evil-b")]
    body := "" }

/-- A structurally malformed `registered` frame: the mandatory `subdomain`
and `url` fields are missing. -/
def badRegisteredFrame : JVal := JVal.obj [("type", JVal.str "registered")]

/-- A local service that trickles one chunk every 20 s and completes after
60 s: never 25 s of socket inactivity, yet far past 25 s to complete. -/
def trickleTiming : ResponseTiming := { gaps := [20000, 20000, 20000] }

-- ─── Helper lemmas on JS objects and the header pipeline ──────────────────

/-- The keys of a headers object, in order. -/
def headerKeys (hs : Headers) : List String := hs.map Prod.fst

/-- Whether the filtering loop copies an entry. -/
def keepHeader (p : String × HVal) : Bool :=
  !(hopByHopHeaders.contains (jsToLowerCase p.1))

/-- A concrete well-behaved request: distinct keys, a single spelling of
`host`, no upper-case `content-length` variant, body `"hello"` in base64. -/
def witnessRequest : ForwardedRequest :=
  { requestId := "w3"
    method := "POST"
    path := "/x"
    headers := [("Connection", HVal.str "keep-alive"),
                ("X-Custom", HVal.str "1"), ("host", HVal.str "old")]
    body := "aGVsbG8=" }

/-- The relay frame `{type: "error", message}`. -/
def serverErrorFrame (message : String) : JVal :=
  JVal.obj [("type", JVal.str "error"), ("message", JVal.str message)]

lemma jsSet_of_not_mem_keys {hs : Headers} {k : String} (v : HVal)
    (h : k ∉ headerKeys hs) : jsSet hs k v = hs ++ [(k, v)] := by
  induction hs with
  | nil => rfl
  | cons q rest ih =>
      obtain ⟨k2, v2⟩ := q
      simp only [headerKeys, List.map_cons, List.mem_cons] at h
      push_neg at h
      simp only [jsSet, if_neg (Ne.symm h.1), List.cons_append, List.cons.injEq,
        true_and]
      exact ih h.2

lemma mem_jsSet {hs : Headers} {k : String} {v : HVal} {p : String × HVal}
    (hp : p ∈ jsSet hs k v) : p ∈ hs ∨ p = (k, v) := by
  induction hs with
  | nil => simp [jsSet] at hp; exact Or.inr hp
  | cons q rest ih =>
      obtain ⟨k2, v2⟩ := q
      by_cases h : k2 = k
      · simp only [jsSet, if_pos h, List.mem_cons] at hp
        rcases hp with hp | hp
        · exact Or.inr hp
        · exact Or.inl (List.mem_cons_of_mem _ hp)
      · simp only [jsSet, if_neg h, List.mem_cons] at hp
        rcases hp with hp | hp
        · exact Or.inl (by simp [hp])
        · rcases ih hp with h2 | h2
          · exact Or.inl (List.mem_cons_of_mem _ h2)
          · exact Or.inr h2

lemma mem_headerKeys_jsSet {hs : Headers} {k q : String} {v : HVal}
    (hq : q ∈ headerKeys (jsSet hs k v)) : q ∈ headerKeys hs ∨ q = k := by
  simp only [headerKeys, List.mem_map] at hq
  obtain ⟨p, hp, rfl⟩ := hq
  rcases mem_jsSet hp with h | h
  · exact Or.inl (List.mem_map_of_mem Prod.fst h)
  · exact Or.inr (by rw [h])

lemma headerKeys_jsSet_nodup {hs : Headers} {k : String} {v : HVal}
    (h : (headerKeys hs).Nodup) : (headerKeys (jsSet hs k v)).Nodup := by
  induction hs with
  | nil => simp [jsSet, headerKeys]
  | cons p rest ih =>
      obtain ⟨k2, v2⟩ := p
      simp only [headerKeys, List.map_cons, List.nodup_cons] at h
      by_cases hk : k2 = k
      · subst hk
        simpa [jsSet, headerKeys] using h
      · simp only [jsSet, if_neg hk, headerKeys, List.map_cons, List.nodup_cons]
        refine ⟨fun hm => ?_, ih h.2⟩
        rcases mem_headerKeys_jsSet hm with h2 | h2
        · exact h.1 h2
        · exact hk h2

lemma mem_stripHopByHop_go {hs acc : Headers} {p : String × HVal}
    (hp : p ∈ hs.foldl
      (fun acc p =>
        if hopByHopHeaders.contains (jsToLowerCase p.1) then acc
        else jsSet acc p.1 p.2) acc) :
    p ∈ acc ∨ p ∈ hs := by
  induction hs generalizing acc with
  | nil => exact Or.inl (by simpa using hp)
  | cons q rest ih =>
      simp only [List.foldl_cons] at hp
      rcases ih hp with h | h
      · by_cases hc : hopByHopHeaders.contains (jsToLowerCase q.1)
        · rw [if_pos hc] at h
          exact Or.inl h
        · rw [if_neg hc] at h
          rcases mem_jsSet h with h2 | h2
          · exact Or.inl h2
          · exact Or.inr (by simp [h2])
      · exact Or.inr (List.mem_cons_of_mem _ h)

lemma mem_stripHopByHop {hs : Headers} {p : String × HVal}
    (hp : p ∈ stripHopByHop hs) : p ∈ hs := by
  rcases mem_stripHopByHop_go hp with h | h
  · simp at h
  · exact h

lemma stripHopByHop_not_hop_go {hs acc : Headers} {p : String × HVal}
    (hacc : ∀ q ∈ acc, hopByHopHeaders.contains (jsToLowerCase q.1) = false)
    (hp : p ∈ hs.foldl
      (fun acc p =>
        if hopByHopHeaders.contains (jsToLowerCase p.1) then acc
        else jsSet acc p.1 p.2) acc) :
    hopByHopHeaders.contains (jsToLowerCase p.1) = false := by
  induction hs generalizing acc with
  | nil => exact hacc p (by simpa using hp)
  | cons q rest ih =>
      simp only [List.foldl_cons] at hp
      by_cases hc : hopByHopHeaders.contains (jsToLowerCase q.1)
      · rw [if_pos hc] at hp
        exact ih hacc hp
      · rw [if_neg hc] at hp
        refine ih ?_ hp
        intro r hr
        rcases mem_jsSet hr with h2 | h2
        · exact hacc r h2
        · rw [h2]
          simpa using hc

lemma stripHopByHop_go_eq_filter {hs : Headers} :
    ∀ acc : Headers, ((acc ++ hs).map Prod.fst).Nodup →
    hs.foldl
      (fun acc p =>
        if hopByHopHeaders.contains (jsToLowerCase p.1) then acc
        else jsSet acc p.1 p.2) acc = acc ++ hs.filter keepHeader := by
  induction hs with
  | nil => intro acc _; simp
  | cons q rest ih =>
      intro acc hnd
      simp only [List.foldl_cons]
      by_cases hc : hopByHopHeaders.contains (jsToLowerCase q.1)
      · rw [if_pos hc]
        have hsub : (acc ++ rest).Sublist (acc ++ q :: rest) :=
          List.Sublist.append_left (List.sublist_cons_self q rest) acc
        have hnd2 : ((acc ++ rest).map Prod.fst).Nodup :=
          List.Nodup.sublist (List.Sublist.map Prod.fst hsub) hnd
        rw [ih acc hnd2]
        have hkeep : keepHeader q = false := by
          unfold keepHeader; rw [hc]; rfl
        rw [List.filter_cons, hkeep]
        simp
      · rw [if_neg hc]
        have hq1 : q.1 ∉ headerKeys acc := by
          intro hmem
          rw [List.map_append, List.nodup_append] at hnd
          exact hnd.2.2 hmem (by simp)
        rw [jsSet_of_not_mem_keys q.2 hq1]
        have heq : (acc ++ [(q.1, q.2)]) ++ rest = acc ++ q :: rest := by
          simp
        have hnd2 : (((acc ++ [(q.1, q.2)]) ++ rest).map Prod.fst).Nodup := by
          rw [heq]; exact hnd
        rw [ih (acc ++ [(q.1, q.2)]) hnd2]
        rw [Bool.not_eq_true] at hc
        have hkeep : keepHeader q = true := by
          unfold keepHeader; rw [hc]; rfl
        rw [List.filter_cons, hkeep]
        simp

/-- Under the JS-object invariant that keys are pairwise distinct, the
copy-and-skip loop is exactly a filter. -/
lemma stripHopByHop_eq_filter {hs : Headers}
    (hnd : (headerKeys hs).Nodup) :
    stripHopByHop hs = hs.filter keepHeader := by
  have h := @stripHopByHop_go_eq_filter hs [] (by simpa [headerKeys] using hnd)
  simpa [stripHopByHop] using h

lemma effectiveHeader_jsSet_ne {hs : Headers} {k n : String} {v : HVal}
    (h : jsToLowerCase k ≠ n) :
    effectiveHeader (jsSet hs k v) n = effectiveHeader hs n := by
  induction hs with
  | nil => simp [jsSet, effectiveHeader, h]
  | cons q rest ih =>
      obtain ⟨k2, v2⟩ := q
      by_cases hk : k2 = k
      · subst hk
        rcases hr : effectiveHeader rest n with _ | w <;>
          simp [jsSet, effectiveHeader, hr, h]
      · rcases hr : effectiveHeader rest n with _ | w <;>
          rcases hr2 : effectiveHeader (jsSet rest k v) n with _ | w2 <;>
          simp [jsSet, effectiveHeader, hk, hr, hr2] <;>
          rw [hr, hr2] at ih <;> simp_all

lemma effectiveHeader_eq_none {hs : Headers} {n : String}
    (hcase : ∀ p ∈ hs, jsToLowerCase p.1 = n → p.1 = n)
    (hn : n ∉ headerKeys hs) : effectiveHeader hs n = none := by
  induction hs with
  | nil => rfl
  | cons q rest ih =>
      obtain ⟨k, v⟩ := q
      simp only [headerKeys, List.map_cons, List.mem_cons] at hn
      push_neg at hn
      have hrest : effectiveHeader rest n = none := by
        refine ih (fun p hp he => hcase p (List.mem_cons_of_mem _ hp) he) ?_
        exact hn.2
      have hne : jsToLowerCase k ≠ n := by
        intro he
        exact hn.1 ((hcase (k, v) (by simp) he).symm)
      simp [effectiveHeader, hrest, hne]

lemma effectiveHeader_jsSet_self {hs : Headers} {n : String} {v : HVal}
    (hnd : (headerKeys hs).Nodup)
    (hcase : ∀ p ∈ hs, jsToLowerCase p.1 = n → p.1 = n)
    (hself : jsToLowerCase n = n) :
    effectiveHeader (jsSet hs n v) n = some v := by
  induction hs with
  | nil => simp [jsSet, effectiveHeader, hself]
  | cons q rest ih =>
      obtain ⟨k2, v2⟩ := q
      simp only [headerKeys, List.map_cons, List.nodup_cons] at hnd
      by_cases hk : k2 = n
      · have hn2 : n ∉ List.map Prod.fst rest := hk ▸ hnd.1
        have hrest : effectiveHeader rest n = none :=
          effectiveHeader_eq_none
            (fun p hp he => hcase p (List.mem_cons_of_mem _ hp) he) hn2
        simp [jsSet, hk, effectiveHeader, hrest, hself]
      · have hih := ih hnd.2 (fun p hp he => hcase p (List.mem_cons_of_mem _ hp) he)
        simp [jsSet, effectiveHeader, hk, hih]

lemma effectiveHeader_filter_keep {hs : Headers} {n : String}
    (hn : hopByHopHeaders.contains n = false) :
    effectiveHeader (hs.filter keepHeader) n = effectiveHeader hs n := by
  induction hs with
  | nil => rfl
  | cons q rest ih =>
      obtain ⟨k, v⟩ := q
      rcases hk : keepHeader (k, v) with _ | _
      · have hcontains : hopByHopHeaders.contains (jsToLowerCase k) = true := by
          have := hk
          unfold keepHeader at this
          simpa using this
        have hne : jsToLowerCase k ≠ n := by
          intro he
          rw [he, hn] at hcontains
          exact absurd hcontains (by decide)
        rw [List.filter_cons, hk, if_neg (by decide), ih]
        rcases hr : effectiveHeader rest n with _ | w <;>
          simp [effectiveHeader, hr, hne]
      · rw [List.filter_cons, hk, if_pos rfl]
        simp only [effectiveHeader, ih]

lemma recordRecentRequest_length_le {buf : List ForwardedRequest}
    {r : ForwardedRequest} (h : buf.length ≤ 10) :
    (recordRecentRequest buf r).length ≤ 10 := by
  have heq : recordRecentRequest buf r =
      if (buf ++ [r]).length > 10 then (buf ++ [r]).tail else buf ++ [r] := rfl
  rw [heq]
  by_cases hc : (buf ++ [r]).length > 10
  · rw [if_pos hc]
    rw [List.length_tail]
    simp only [List.length_append, List.length_singleton] at hc ⊢
    omega
  · rw [if_neg hc]
    simp only [List.length_append, List.length_singleton] at hc ⊢
    omega

lemma foldl_record_eq_drop :
    ∀ (rs buf : List ForwardedRequest), buf.length ≤ 10 →
    rs.foldl recordRecentRequest buf =
      (buf ++ rs).drop (buf.length + rs.length - 10) := by
  intro rs
  induction rs with
  | nil =>
      intro buf h
      simp only [List.foldl_nil, List.append_nil, List.length_nil,
        Nat.add_zero]
      rw [Nat.sub_eq_zero_of_le h, List.drop_zero]
  | cons a t ih =>
      intro buf h
      simp only [List.foldl_cons]
      by_cases hc : buf.length = 10
      · obtain ⟨b, bt, rfl⟩ : ∃ b bt, buf = b :: bt := by
          cases buf with
          | nil => simp at hc
          | cons b bt => exact ⟨b, bt, rfl⟩
        have hbt : bt.length = 9 := by simpa using hc
        have hrec : recordRecentRequest (b :: bt) a = bt ++ [a] := by
          unfold recordRecentRequest
          rw [if_pos (by simp; omega)]
          rfl
        rw [hrec, ih (bt ++ [a]) (by simp; omega)]
        have h1 : (bt ++ [a]).length + t.length - 10 = t.length := by
          simp; omega
        have h2 : (b :: bt).length + (a :: t).length - 10 = t.length + 1 := by
          simp; omega
        rw [h1, h2]
        have : (b :: bt) ++ a :: t = b :: (bt ++ a :: t) := rfl
        rw [this, List.drop_succ_cons]
        simp
      · have hlt : buf.length < 10 := lt_of_le_of_ne h hc
        have hrec : recordRecentRequest buf a = buf ++ [a] := by
          unfold recordRecentRequest
          rw [if_neg (by simp; omega)]
        rw [hrec, ih (buf ++ [a]) (by simp; omega)]
        have h1 : (buf ++ [a]).length + t.length - 10 =
            buf.length + (a :: t).length - 10 := by
          simp; omega
        rw [h1]
        simp

-- ─── Helper lemmas on the reconnect backoff ───────────────────────────────

lemma reconnectDelayAfterCloses_succ (n : Nat) :
    reconnectDelayAfterCloses (n + 1) =
      min (reconnectDelayAfterCloses n * 2) 30000 := rfl

lemma reconnectDelayAfterCloses_le (n : Nat) :
    reconnectDelayAfterCloses n ≤ 30000 := by
  cases n with
  | zero =>
      norm_num [reconnectDelayAfterCloses, stateAfterCloses, wsOnOpen,
        cliInitialState]
  | succ m =>
      rw [reconnectDelayAfterCloses_succ]
      exact min_le_right _ _

lemma reconnectDelayAfterCloses_five :
    reconnectDelayAfterCloses 5 = 30000 := by
  norm_num [reconnectDelayAfterCloses, stateAfterCloses, scheduleReconnect,
    wsOnOpen, cliInitialState]

lemma reconnectDelayAfterCloses_of_ge_five {n : Nat} (h : 5 ≤ n) :
    reconnectDelayAfterCloses n = 30000 := by
  obtain ⟨m, rfl⟩ := Nat.exists_eq_add_of_le h
  induction m with
  | zero => exact reconnectDelayAfterCloses_five
  | succ k ihk =>
      have : 5 + (k + 1) = (5 + k) + 1 := by omega
      rw [this, reconnectDelayAfterCloses_succ, ihk (by omega)]
      norm_num

-- ─── Claim theorems ───────────────────────────────────────────────────────

/-- C1 counterexample: after five consecutive unexpected closes
`reconnectDelay` has reached the 30000 cap, and there the code computes
`Math.min(reconnectDelay + jitter, 30000)`: with jitter draw 100 the actual
delay is 30000, while the claimed formula
`min(currentDelayMs, 30000) + jitter` gives 30100. -/
theorem backoff_delay_claim_counterexample :
    reconnectDelayAfterCloses 5 = 30000 ∧
    (0 : Rat) ≤ 100 ∧ (100 : Rat) < 500 ∧
    (scheduleReconnect (stateAfterCloses 5) 100).1 = 30000 ∧
    min (reconnectDelayAfterCloses 5) 30000 + 100 = (30100 : Rat) ∧
    (scheduleReconnect (stateAfterCloses 5) 100).1 ≠
      min (reconnectDelayAfterCloses 5) 30000 + 100 := by
  have hst : (stateAfterCloses 5).reconnectDelay = 30000 :=
    reconnectDelayAfterCloses_five
  have h4 : (scheduleReconnect (stateAfterCloses 5) 100).1 = 30000 := by
    simp only [scheduleReconnect, hst]
    rw [min_eq_right (by norm_num)]
  have h5c : min (reconnectDelayAfterCloses 5) 30000 + 100 = (30100 : Rat) := by
    rw [reconnectDelayAfterCloses_five]
    norm_num
  refine ⟨reconnectDelayAfterCloses_five, by norm_num, by norm_num, h4, h5c, ?_⟩
  rw [h4, h5c]
  norm_num

/-- C1 amended: the delay for the `n`-th consecutive unexpected close with
jitter draw `j` in `[0, 500)` is `min(reconnectDelay + j, 30000)`; this
equals `reconnectDelay + j` while `reconnectDelay` is below the cap
(`n ≤ 4`) and exactly 30000 once capped (`n ≥ 5`, jitter suppressed); it
always equals `min(reconnectDelay, 30000)` plus some jitter component in
`[0, 500)`; after each close `reconnectDelay` doubles capped at 30000;
ignoring jitter the delay sequence is 1000, 2000, 4000, 8000, 16000, 30000,
30000, repeating 30000 thereafter. -/
theorem backoff_delay_amended (n : Nat) (j : Rat) (hj0 : 0 ≤ j)
    (hj : j < 500) :
    (scheduleReconnect (stateAfterCloses n) j).1 =
      min (reconnectDelayAfterCloses n + j) 30000 ∧
    (n ≤ 4 → (scheduleReconnect (stateAfterCloses n) j).1 =
      reconnectDelayAfterCloses n + j) ∧
    (5 ≤ n → reconnectDelayAfterCloses n = 30000 ∧
      (scheduleReconnect (stateAfterCloses n) j).1 = 30000) ∧
    (∃ j2 : Rat, 0 ≤ j2 ∧ j2 < 500 ∧
      (scheduleReconnect (stateAfterCloses n) j).1 =
        min (reconnectDelayAfterCloses n) 30000 + j2) ∧
    (scheduleReconnect (stateAfterCloses n) j).2.reconnectDelay =
      min (reconnectDelayAfterCloses n * 2) 30000 ∧
    (scheduleReconnect (stateAfterCloses n) 0).1 =
      reconnectDelayAfterCloses n ∧
    reconnectDelayAfterCloses 0 = 1000 ∧ reconnectDelayAfterCloses 1 = 2000 ∧
    reconnectDelayAfterCloses 2 = 4000 ∧ reconnectDelayAfterCloses 3 = 8000 ∧
    reconnectDelayAfterCloses 4 = 16000 ∧
    reconnectDelayAfterCloses 5 = 30000 ∧
    reconnectDelayAfterCloses 6 = 30000 := by
  have hbelow : n ≤ 4 → (scheduleReconnect (stateAfterCloses n) j).1 =
      reconnectDelayAfterCloses n + j := by
    intro hn
    have hle : reconnectDelayAfterCloses n ≤ 16000 := by
      interval_cases n <;>
        norm_num [reconnectDelayAfterCloses, stateAfterCloses,
          scheduleReconnect, wsOnOpen, cliInitialState]
    show min (reconnectDelayAfterCloses n + j) 30000 = _
    rw [min_eq_left (by linarith)]
  have hcapped : 5 ≤ n → reconnectDelayAfterCloses n = 30000 ∧
      (scheduleReconnect (stateAfterCloses n) j).1 = 30000 := by
    intro hn
    have h30 := reconnectDelayAfterCloses_of_ge_five hn
    refine ⟨h30, ?_⟩
    show min (reconnectDelayAfterCloses n + j) 30000 = 30000
    rw [h30, min_eq_right (by linarith)]
  refine ⟨rfl, hbelow, hcapped, ?_, rfl, ?_, ?_⟩
  · rcases le_or_lt n 4 with hn | hn
    · refine ⟨j, hj0, hj, ?_⟩
      rw [hbelow hn, min_eq_left (reconnectDelayAfterCloses_le n)]
    · refine ⟨0, le_refl 0, by norm_num, ?_⟩
      rw [(hcapped hn).2, (hcapped hn).1]
      norm_num
  · show min (reconnectDelayAfterCloses n + 0) 30000 = _
    rw [add_zero, min_eq_left (reconnectDelayAfterCloses_le n)]
  · refine ⟨rfl, ?_, ?_, ?_, ?_, reconnectDelayAfterCloses_five, ?_⟩ <;>
      norm_num [reconnectDelayAfterCloses, stateAfterCloses,
        scheduleReconnect, wsOnOpen, cliInitialState]

/-- C1 amended, witness at the third close with jitter draw 250: the delay
is 4000 + 250. -/
theorem backoff_delay_amended_witness :
    (0 : Rat) ≤ 250 ∧ (250 : Rat) < 500 ∧
    (scheduleReconnect (stateAfterCloses 2) 250).1 =
      reconnectDelayAfterCloses 2 + 250 :=
  ⟨by norm_num, by norm_num,
   (backoff_delay_amended 2 250 (by norm_num) (by norm_num)).2.1
     (by norm_num)⟩

/-- C4: in every outcome branch — success, connection refusal, timeout and
mid-transfer stream error alike — the response `forwardToLocal` produces
carries the `requestId` of the input request. -/
theorem forward_requestId_correlation (localHost : String) (localPort : Nat)
    (request : ForwardedRequest) (outcome : LocalOutcome) :
    (forwardToLocal localHost localPort request outcome).requestId =
      request.requestId := by
  cases outcome <;> rfl

/-- C3 counterexample: for a request carrying both `host` and `Host` keys,
the loop keeps both (neither is hop-by-hop), `headers['host'] = target`
replaces only the exact lowercase key in place — before the surviving
`Host` entry — and the HTTP client's case-insensitive last-wins header
store therefore sends the input's `Host` value, not
`target.host:target.port`. -/
theorem outbound_headers_claim_counterexample :
    effectiveHeader
      (forwardOptionsHeaders "localhost" 3000 hostCollisionRequest) "host" =
      some (HVal.str "evil-b") ∧
    effectiveHeader
      (forwardOptionsHeaders "localhost" 3000 hostCollisionRequest) "host" ≠
      some (HVal.str "localhost:3000") := by
  exact ⟨by decide, by decide⟩

/-- C3 amended: hop-by-hop removal holds unconditionally, for every casing
of the input keys.  For every request whose header keys are pairwise
distinct and use no alternative spelling of `host` or `content-length`
(in particular for relay-normalized all-lowercase keys), the header sent as
`host` is exactly `target.host:target.port`, the header sent as
`content-length` is exactly the byte length of the base64-decoded request
body, and every other non-hop-by-hop header name reaches the outbound call
with the value it has in the request. -/
theorem outbound_headers_amended (localHost : String) (localPort : Nat)
    (request : ForwardedRequest)
    (hnd : (headerKeys request.headers).Nodup)
    (hhost : ∀ p ∈ request.headers,
      jsToLowerCase p.1 = "host" → p.1 = "host")
    (hcl : ∀ p ∈ request.headers,
      jsToLowerCase p.1 = "content-length" → p.1 = "content-length") :
    (∀ p ∈ forwardOptionsHeaders localHost localPort request,
      hopByHopHeaders.contains (jsToLowerCase p.1) = false) ∧
    effectiveHeader (forwardOptionsHeaders localHost localPort request)
      "host" = some (HVal.str (localHost ++ ":" ++ toString localPort)) ∧
    effectiveHeader (forwardOptionsHeaders localHost localPort request)
      "content-length" =
      some (HVal.num (base64Decode request.body).length) ∧
    (∀ n : String, hopByHopHeaders.contains n = false →
      n ≠ "host" → n ≠ "content-length" →
      effectiveHeader (forwardOptionsHeaders localHost localPort request) n =
        effectiveHeader request.headers n) := by
  have hndS : (headerKeys (stripHopByHop request.headers)).Nodup := by
    rw [stripHopByHop_eq_filter hnd]
    exact List.Nodup.sublist
      (List.Sublist.map Prod.fst (List.filter_sublist _)) hnd
  have hmemS : ∀ p ∈ stripHopByHop request.headers, p ∈ request.headers :=
    fun p hp => mem_stripHopByHop hp
  have hcaseS : ∀ p ∈ stripHopByHop request.headers,
      jsToLowerCase p.1 = "host" → p.1 = "host" :=
    fun p hp he => hhost p (hmemS p hp) he
  have hlowHost : jsToLowerCase "host" = "host" := by decide
  have hlowCl : jsToLowerCase "content-length" = "content-length" := by decide
  have hhostEff : effectiveHeader
      (jsSet (stripHopByHop request.headers) "host"
        (HVal.str (localHost ++ ":" ++ toString localPort))) "host" =
      some (HVal.str (localHost ++ ":" ++ toString localPort)) :=
    effectiveHeader_jsSet_self hndS hcaseS hlowHost
  have hndT : (headerKeys (jsSet (stripHopByHop request.headers) "host"
      (HVal.str (localHost ++ ":" ++ toString localPort)))).Nodup :=
    headerKeys_jsSet_nodup hndS
  have hcaseT : ∀ p ∈ jsSet (stripHopByHop request.headers) "host"
      (HVal.str (localHost ++ ":" ++ toString localPort)),
      jsToLowerCase p.1 = "content-length" → p.1 = "content-length" := by
    intro p hp he
    rcases mem_jsSet hp with h | h
    · exact hcl p (hmemS p h) he
    · rw [h] at he
      rw [hlowHost] at he
      exact absurd he (by decide)
  refine ⟨?_, ?_, ?_, ?_⟩
  · intro p hp
    unfold forwardOptionsHeaders at hp
    rcases mem_jsSet hp with h | h
    · rcases mem_jsSet h with h2 | h2
      · exact stripHopByHop_not_hop_go (by intro q hq; simp at hq) h2
      · rw [h2]
        show hopByHopHeaders.contains (jsToLowerCase "host") = false
        decide
    · rw [h]
      show hopByHopHeaders.contains (jsToLowerCase "content-length") = false
      decide
  · show effectiveHeader (jsSet _ "content-length" _) "host" = _
    rw [effectiveHeader_jsSet_ne (by rw [hlowCl]; decide)]
    exact hhostEff
  · exact effectiveHeader_jsSet_self hndT hcaseT hlowCl
  · intro n hn hn1 hn2
    show effectiveHeader (jsSet _ "content-length" _) n = _
    rw [effectiveHeader_jsSet_ne (by rw [hlowCl]; exact Ne.symm hn2),
        effectiveHeader_jsSet_ne (by rw [hlowHost]; exact Ne.symm hn1),
        stripHopByHop_eq_filter hnd,
        effectiveHeader_filter_keep hn]

/-- C3 amended, witness: a request with distinct single-spelling keys gets
its `host` header rewritten to the target. -/
theorem outbound_headers_amended_witness :
    effectiveHeader
      (forwardOptionsHeaders "localhost" 3000 witnessRequest) "host" =
      some (HVal.str ("localhost" ++ ":" ++ toString 3000)) :=
  (outbound_headers_amended "localhost" 3000 witnessRequest
    (by decide) (by decide) (by decide)).2.1

/-- C5 counterexample: the frame `{"type":"registered"}` parses as JSON but
fails the expected structural shape of every known variant (no `subdomain`,
no `url`), yet the handler does not discard it: it takes the `registered`
branch, assigning the absent `url` property to `tunnel.url` and resolving
the construction promise — a state change visible to collaborators. -/
theorem malformed_frame_claim_counterexample :
    expectedShape badRegisteredFrame = false ∧
    handleMessage false (some badRegisteredFrame) =
      MsgAction.register none ∧
    handleMessage false (some badRegisteredFrame) ≠ MsgAction.discard := by
  refine ⟨by decide, rfl, ?_⟩
  intro h
  rw [show handleMessage false (some badRegisteredFrame) =
    MsgAction.register none from rfl] at h
  exact MsgAction.noConfusion h

/-- C5 amended: a frame is silently discarded exactly when it fails JSON
parsing or it parses to a non-null value whose `type` tag is not one of the
handled strings `error`, `registered`, `request`.  A frame bearing a
handled tag is processed without any further shape validation, missing
fields surfacing as `undefined`; and the parsed frame `null` is neither
discarded nor processed — reading `msg.type` on it throws a TypeError that
escapes the async handler as an unhandled promise rejection. -/
theorem malformed_frame_amended (resolved : Bool) :
    handleMessage resolved none = MsgAction.discard ∧
    (∀ (v : JVal) (tag : Option String), typeTag v = Except.ok tag →
      tag ≠ some "error" → tag ≠ some "registered" → tag ≠ some "request" →
      handleMessage resolved (some v) = MsgAction.discard) ∧
    handleMessage resolved (some JVal.null) =
      MsgAction.typeError "TypeError: Cannot read properties of null" ∧
    (∀ e : String, MsgAction.typeError e ≠ MsgAction.discard) := by
  refine ⟨rfl, ?_, rfl, fun e h => MsgAction.noConfusion h⟩
  intro v tag ht g1 g2 g3
  unfold handleMessage
  simp only [ht]
  rcases tag with _ | t
  · rfl
  · have g1t : ¬t = "error" := fun he => g1 (by rw [he])
    have g2t : ¬t = "registered" := fun he => g2 (by rw [he])
    have g3t : ¬t = "request" := fun he => g3 (by rw [he])
    simp only [if_neg g1t, if_neg g2t, if_neg g3t]

/-- C5 amended, witness: the JSON frame `7` parses to a non-null value with
no recognized tag and is discarded. -/
theorem malformed_frame_amended_witness :
    handleMessage false (some (JVal.num 7)) = MsgAction.discard :=
  (malformed_frame_amended false).2.1 (JVal.num 7) none rfl
    (by decide) (by decide) (by decide)

/-- C6: a relay `error` frame received before registration makes the
handler clear the connect timeout, close the channel and reject the
construction promise with an error whose text contains the relay's message;
the branch closes the channel whether or not registration happened, and on
the CLI side the error branch raises `shuttingDown`, so the close handler
that follows never schedules a reconnect — an error-type message is never
retried. -/
theorem pre_registration_error_fatal (m : String) :
    handleMessage false (some (serverErrorFrame m)) =
      MsgAction.fatalError (some ("tunnrl: " ++ m)) ∧
    (∃ pre suf : List Char,
      ("tunnrl: " ++ m).data = pre ++ m.data ++ suf) ∧
    (∀ resolved : Bool,
      closesChannel (handleMessage resolved (some (serverErrorFrame m))) =
        true) ∧
    (∀ st : CliTunnelState,
      cliOnCloseSchedulesReconnect (cliHandleServerError st) = false) := by
  refine ⟨rfl, ⟨"tunnrl: ".data, [], by rw [List.append_nil]; rfl⟩, ?_, ?_⟩
  · intro resolved
    cases resolved <;> rfl
  · intro st
    rfl

/-- C7 counterexample: `localReq.setTimeout(25000)` is a socket inactivity
timeout, not a completion deadline.  A local service that sends a chunk
every 20 s and completes only after 60 s never leaves the socket idle for
25 s: the outbound call does not complete within 25 seconds, yet the
timeout callback never runs and the forward resolves with the service's
status 200 — not 504. -/
theorem forward_timeout_claim_counterexample :
    25000 < completionTime trickleTiming ∧
    socketTimeoutFires trickleTiming = false ∧
    outcomeOfTiming (some 200) [] [[111, 107]] trickleTiming =
      LocalOutcome.success (some 200) [] [[111, 107]] ∧
    (forwardToLocal "localhost" 3000 (sampleRequest "c7")
      (outcomeOfTiming (some 200) [] [[111, 107]] trickleTiming)).status =
      200 ∧
    (forwardToLocal "localhost" 3000 (sampleRequest "c7")
      (outcomeOfTiming (some 200) [] [[111, 107]] trickleTiming)).status ≠
      504 ∧
    FORWARD_TIMEOUT_MS = 25000 :=
  ⟨by decide, by decide, by decide, by decide, by decide, rfl⟩

/-- C7 amended: the 25000 ms timer is a socket inactivity timeout — it
fires exactly when some single gap with no socket activity reaches
25000 ms, which a service that keeps trickling data never triggers however
long completion takes.  When it does fire, the outbound call is destroyed
and the forward resolves with exactly `makeErrorResponse(requestId, 504,
'Local service timed out')`: status 504 and a body that is the base64
encoding of the JSON text, recoverable by the same decoder used for normal
bodies; otherwise the success response is collected. -/
theorem forward_timeout_amended (localHost : String) (localPort : Nat)
    (request : ForwardedRequest) (statusCode : Option Nat)
    (respHeaders : Headers) (chunks : List (List Nat))
    (t : ResponseTiming) :
    (socketTimeoutFires t = true ↔ ∃ g ∈ t.gaps, FORWARD_TIMEOUT_MS ≤ g) ∧
    (socketTimeoutFires t = true →
      outcomeOfTiming statusCode respHeaders chunks t =
        LocalOutcome.timeout ∧
      forwardToLocal localHost localPort request
        (outcomeOfTiming statusCode respHeaders chunks t) =
        makeErrorResponse request.requestId 504 "Local service timed out") ∧
    (socketTimeoutFires t = false →
      outcomeOfTiming statusCode respHeaders chunks t =
        LocalOutcome.success statusCode respHeaders chunks) ∧
    (forwardToLocal localHost localPort request
      LocalOutcome.timeout).status = 504 ∧
    (forwardToLocal localHost localPort request LocalOutcome.timeout).body =
      base64Encode
        (asciiBytes (jsonStringifyError "Local service timed out")) ∧
    base64Decode
      (forwardToLocal localHost localPort request
        LocalOutcome.timeout).body =
      asciiBytes (jsonStringifyError "Local service timed out") ∧
    FORWARD_TIMEOUT_MS = 25000 := by
  refine ⟨?_, ?_, ?_, rfl, rfl, ?_, rfl⟩
  · simp [socketTimeoutFires]
  · intro hf
    unfold outcomeOfTiming
    rw [if_pos hf]
    exact ⟨rfl, rfl⟩
  · intro hf
    simp [outcomeOfTiming, hf]
  · rw [show (forwardToLocal localHost localPort request
      LocalOutcome.timeout).body =
      base64Encode
        (asciiBytes (jsonStringifyError "Local service timed out"))
      from rfl]
    decide

/-- C7 amended, witness: a 30 s idle gap fires the inactivity timeout and
the forward resolves with the synthesized 504 response. -/
theorem forward_timeout_amended_witness :
    socketTimeoutFires { gaps := [30000] } = true ∧
    forwardToLocal "localhost" 3000 (sampleRequest "w7")
      (outcomeOfTiming (some 200) [] [] { gaps := [30000] }) =
      makeErrorResponse "w7" 504 "Local service timed out" := by
  refine ⟨by decide, ?_⟩
  have h := (forward_timeout_amended "localhost" 3000 (sampleRequest "w7")
    (some 200) [] [] { gaps := [30000] }).2.1 (by decide)
  rw [h.2]
  rfl

/-- C8: after a forward completes, the response frame is handed to
`ws.send` exactly when the channel's ready state is `OPEN`; in every other
ready state nothing is sent and the completed response is dropped; whatever
is sent is the completed response itself. -/
theorem response_send_guard (readyState : ReadyState)
    (response : ForwardedResponse) :
    (sendResponseIfOpen readyState response = some response ↔
      readyState = ReadyState.OPEN) ∧
    (readyState ≠ ReadyState.OPEN →
      sendResponseIfOpen readyState response = none) ∧
    (∀ sent : ForwardedResponse,
      sendResponseIfOpen readyState response = some sent →
        sent = response ∧ readyState = ReadyState.OPEN) := by
  unfold sendResponseIfOpen
  by_cases h : readyState = ReadyState.OPEN
  · subst h
    simp
  · simp [h]

/-- C8 witness: on a closed channel the completed response is dropped. -/
theorem response_send_guard_witness :
    sendResponseIfOpen ReadyState.CLOSED
      (makeErrorResponse "w8" 504 "Local service timed out") = none :=
  (response_send_guard ReadyState.CLOSED
    (makeErrorResponse "w8" 504 "Local service timed out")).2.1 (by decide)

/-- C9: one recording step keeps the buffer within 10 entries; any sequence
of recordings starting from the empty buffer stays within 10; and after
recording eleven requests of which the first differs from the ten that
follow, the buffer is exactly the last ten in unchanged FIFO order, and the
first recorded request is no longer retrievable. -/
theorem replay_buffer_bounded (buf : List ForwardedRequest)
    (r : ForwardedRequest) (rs : List ForwardedRequest)
    (hbuf : buf.length ≤ 10) :
    (recordRecentRequest buf r).length ≤ 10 ∧
    (rs.foldl recordRecentRequest []).length ≤ 10 ∧
    (rs.length = 10 → (r :: rs).foldl recordRecentRequest [] = rs) ∧
    (rs.length = 10 → r ∉ rs →
      r ∉ (r :: rs).foldl recordRecentRequest []) := by
  have hfold10 : rs.length = 10 →
      (r :: rs).foldl recordRecentRequest [] = rs := by
    intro h10
    have h1 : recordRecentRequest [] r = [r] := rfl
    rw [List.foldl_cons, h1, foldl_record_eq_drop rs [r] (by simp)]
    have h2 : [r].length + rs.length - 10 = 1 := by
      simp [h10]
    rw [h2]
    simp
  refine ⟨recordRecentRequest_length_le hbuf, ?_, hfold10, ?_⟩
  · rw [foldl_record_eq_drop rs [] (by simp)]
    rw [List.length_drop]
    simp
    omega
  · intro h10 hnotin
    rw [hfold10 h10]
    exact hnotin

/-- C9 witness: recording one request and then ten distinct others from an
empty buffer leaves exactly the last ten, the first no longer present. -/
theorem replay_buffer_bounded_witness :
    (sampleRequest "0" :: tenRequests).foldl recordRecentRequest [] =
      tenRequests ∧
    sampleRequest "0" ∉
      (sampleRequest "0" :: tenRequests).foldl recordRecentRequest [] :=
  ⟨(replay_buffer_bounded [] (sampleRequest "0") tenRequests
      (by decide)).2.2.1 (by decide),
   (replay_buffer_bounded [] (sampleRequest "0") tenRequests
      (by decide)).2.2.2 (by decide) (by decide)⟩

/-- C10 counterexample: on the host string `"https"` the API module's check
`startsWith('https')` selects the encrypted transport while the CLI's
`startsWith('https://')` selects the plain one — the two scheme-selection
functions are not extensionally equal. -/
theorem transport_scheme_claim_counterexample :
    forwardTransportIsHttps "https" = true ∧
    cliForwardTransportIsHttps "https" = false ∧
    forwardTransportIsHttps "https" ≠ cliForwardTransportIsHttps "https" :=
  ⟨by decide, by decide, by decide⟩

/-- C10 amended: the CLI check implies the API check (every
`https://`-prefixed host is `https`-prefixed), and the two selections agree
on a host exactly when its `https` prefix extends to `https://` — they
disagree precisely on hosts that start with `https` but not `https://`. -/
theorem transport_scheme_amended (localHost : String) :
    (cliForwardTransportIsHttps localHost = true →
      forwardTransportIsHttps localHost = true) ∧
    (forwardTransportIsHttps localHost =
        cliForwardTransportIsHttps localHost ↔
      (forwardTransportIsHttps localHost = true →
        cliForwardTransportIsHttps localHost = true)) := by
  have himp : cliForwardTransportIsHttps localHost = true →
      forwardTransportIsHttps localHost = true := by
    intro h
    unfold cliForwardTransportIsHttps jsStartsWith at h
    unfold forwardTransportIsHttps jsStartsWith
    rw [List.isPrefixOf_iff_prefix] at h ⊢
    exact List.IsPrefix.trans (by decide) h
  refine ⟨himp, ?_⟩
  rcases hA : forwardTransportIsHttps localHost <;>
    rcases hC : cliForwardTransportIsHttps localHost
  · simp
  · rw [hA, hC] at himp
    exact absurd (himp rfl) (by decide)
  · simp
  · simp

/-- C10 amended, witness: a host written with the full `https://` scheme
selects the encrypted transport in the API module as well. -/
theorem transport_scheme_amended_witness :
    forwardTransportIsHttps "https://svc" = true :=
  (transport_scheme_amended "https://svc").1 (by decide)
